import Mathlib

/-!
Verification of the barrier-synchronized burst reproducer (`src/burst-trigger.c`).

The C program is shallowly embedded below:

* `BurstBarrier` / `barrier_signal_and_wait` model `struct burst_barrier`
  and the rendezvous helper (lines 47-51 and 100-113 of the source).
* `SysState` / `stepThread` give an interleaving small-step semantics of
  the threads (`coordinator_thread`, `accumulator_thread`, the
  `converter_thread` instances, and the asynchronous signal delivery that
  runs `sighandler`'s store to `running`).  Each program counter value
  corresponds to one atomic access (or one block of purely external file
  I/O) of the corresponding thread body; purely local work (file creation,
  `sync_file_range`, `ftruncate`/`write` loops, `printf`, `usleep`) does
  not touch the shared atomics and is collapsed into a single step.
* `RunState`, `save_state`, `check_previous_crash`, `sighandler` model the
  crash-forensics persistence (lines 291-345).  The state file at
  `STATE_FILE` is modelled by `StateFile`: absent, holding a short
  (partial) record, or holding one full record; `read` returning fewer
  than `sizeof(state)` bytes corresponds to `StateFile.shortRead`.

Machine integers: `atomic_uint ready_count` is a `Nat` reduced modulo
`UINT_MOD = 2^32` at each write, `atomic_ulong` counters and the local
`unsigned long bursts` are `Nat` reduced modulo `ULONG_MOD = 2^64`.
-/

set_option maxRecDepth 16384

/-- `#define PHASE_ACCUMULATE 0` (line 73). -/
def PHASE_ACCUMULATE : Nat := 0

/-- `#define PHASE_TRIGGER 1` (line 74). -/
def PHASE_TRIGGER : Nat := 1

/-- `#define PHASE_CONVERT 2` (line 75). -/
def PHASE_CONVERT : Nat := 2

/-- `#define PHASE_CLEANUP 3` (line 76). -/
def PHASE_CLEANUP : Nat := 3

/-- Modulus of C `unsigned int` (the type of `barrier.phase` and
`barrier.ready_count`). -/
def UINT_MOD : Nat := 2 ^ 32

/-- Modulus of C `unsigned long` on LP64 (the type of `barrier.burst_count`,
`total_conversions` and the local `bursts`). -/
def ULONG_MOD : Nat := 2 ^ 64

/-- `struct burst_barrier` (lines 47-51): current phase, workers ready for
the next phase, completed bursts. -/
structure BurstBarrier where
  phase : Nat
  ready_count : Nat
  burst_count : Nat
  deriving DecidableEq, Repr

/-- `barrier_signal_and_wait` (lines 100-113): the shared-state effect of one
call.  `atomic_fetch_add(&barrier.ready_count, 1) + 1` yields `ready`; the
caller that drives `ready` to exactly `(uint)worker_count` stores 0 to the
counter and stores `next_phase` to the phase register; every other caller
only leaves its increment behind (its subsequent spin-wait loop, lines
108-112, performs no write). -/
def barrier_signal_and_wait (next_phase worker_count : Nat) (b : BurstBarrier) : BurstBarrier :=
  let ready := (b.ready_count + 1) % UINT_MOD
  if ready = worker_count then
    { b with ready_count := 0, phase := next_phase }
  else
    { b with ready_count := ready }

/-- The guard of the spin-wait loop in `barrier_wait_phase` (line 92), which
is also the guard shape of the non-last-arriver wait in
`barrier_signal_and_wait` (line 109) and of the converters' phase wait
(line 249): `atomic_load(&barrier.phase) != expected_phase &&
atomic_load(&running)`. -/
def barrier_wait_phase_guard (phase expected_phase running : Nat) : Bool :=
  (phase != expected_phase) && (running != 0)

/-- The quorum property of `barrier_signal_and_wait`, for quorum `N` starting
from arrival counter 0: the first `N - 1` calls leave the phase untouched and
step the counter by one each, and the `N`-th call advances the phase to the
requested next phase and resets the counter to zero. -/
def SignalAndWaitQuorum (N next : Nat) (b0 : BurstBarrier) : Prop :=
  (∀ k, k < N →
      ((barrier_signal_and_wait next N)^[k] b0).phase = b0.phase ∧
      ((barrier_signal_and_wait next N)^[k] b0).ready_count = k) ∧
  (barrier_signal_and_wait next N)^[N] b0 =
    { phase := next, ready_count := 0, burst_count := b0.burst_count }

theorem signal_and_wait_iter (N next : Nat) (hN : N < UINT_MOD) (b0 : BurstBarrier)
    (hb : b0.ready_count = 0) :
    ∀ k, k < N → (barrier_signal_and_wait next N)^[k] b0 =
      { phase := b0.phase, ready_count := k, burst_count := b0.burst_count } := by
  intro k
  induction k with
  | zero =>
    intro _
    cases b0 with
    | mk p r c => simp_all
  | succ k ih =>
    intro hk
    have hk' : k < N := Nat.lt_of_succ_lt hk
    rw [Function.iterate_succ_apply', ih hk']
    have hlt : k + 1 < UINT_MOD := Nat.lt_trans hk hN
    have hmod : (k + 1) % UINT_MOD = k + 1 := Nat.mod_eq_of_lt hlt
    have hne : k + 1 ≠ N := Nat.ne_of_lt hk
    simp [barrier_signal_and_wait, hmod, hne]

/-- C1: for every configured quorum `N ≥ 1` (and `N` within `unsigned int`
range, as guaranteed by the clamp `1 ≤ num_converters ≤ 64` in `main`),
starting from a barrier whose arrival counter is zero, `N` calls to
`barrier_signal_and_wait next N` advance the phase to `next` exactly once
(the first `N - 1` calls leave it unchanged) and leave the arrival counter
reset to zero. -/
theorem barrier_signal_and_wait_quorum (N next : Nat) (hN : 1 ≤ N) (hN32 : N < UINT_MOD)
    (b0 : BurstBarrier) (hb : b0.ready_count = 0) :
    SignalAndWaitQuorum N next b0 := by
  constructor
  · intro k hk
    rw [signal_and_wait_iter N next hN32 b0 hb k hk]
    exact ⟨rfl, rfl⟩
  · obtain ⟨M, hM⟩ : ∃ M, N = M + 1 := ⟨N - 1, (Nat.succ_pred_eq_of_pos hN).symm⟩
    have hMlt : M < N := by omega
    rw [hM, Function.iterate_succ_apply', ← hM,
      signal_and_wait_iter N next hN32 b0 hb M hMlt]
    have hmod : (M + 1) % UINT_MOD = M + 1 := Nat.mod_eq_of_lt (by omega)
    simp [barrier_signal_and_wait, hmod, hM]

/-- Witness for C1: quorum 4, starting phase 0, next phase 1. -/
theorem barrier_signal_and_wait_quorum_witness :
    1 ≤ 4 ∧ 4 < UINT_MOD ∧ (BurstBarrier.mk 0 0 0).ready_count = 0 ∧
      SignalAndWaitQuorum 4 1 (BurstBarrier.mk 0 0 0) :=
  ⟨by decide, by norm_num [UINT_MOD], rfl,
    barrier_signal_and_wait_quorum 4 1 (by decide) (by norm_num [UINT_MOD])
      (BurstBarrier.mk 0 0 0) rfl⟩

/-- The configuration derived from `num_files` and `num_converters`
(globals at lines 59-60, set and clamped in `main`, lines 390-393). -/
structure Config where
  num_files : Nat
  num_converters : Nat
  deriving DecidableEq, Repr

/-- `int start = (id * num_files) / num_converters;` (line 241). -/
def convStart (cfg : Config) (id : Nat) : Nat :=
  (id * cfg.num_files) / cfg.num_converters

/-- `int end = ((id + 1) * num_files) / num_converters;` (line 242). -/
def convEnd (cfg : Config) (id : Nat) : Nat :=
  ((id + 1) * cfg.num_files) / cfg.num_converters

theorem conv_mem_iff (cfg : Config) (i k : Nat) (hW : 0 < cfg.num_converters) :
    (convStart cfg i ≤ k ∧ k < convEnd cfg i) ↔
      (i * cfg.num_files < (k + 1) * cfg.num_converters ∧
        (k + 1) * cfg.num_converters ≤ (i + 1) * cfg.num_files) := by
  unfold convStart convEnd
  constructor
  · rintro ⟨h1, h2⟩
    refine ⟨(Nat.div_lt_iff_lt_mul hW).mp (Nat.lt_succ_of_le h1), ?_⟩
    exact (Nat.le_div_iff_mul_le hW).mp h2
  · rintro ⟨h1, h2⟩
    have h3 := (Nat.div_lt_iff_lt_mul hW).mpr h1
    exact ⟨Nat.lt_succ_iff.mp h3, (Nat.le_div_iff_mul_le hW).mpr h2⟩

/-- The partition property of the per-converter ranges: contiguity, the
first range starts at 0, the last ends at `num_files`, every range lies
inside `[0, num_files)`, and every index below `num_files` lies in exactly
one converter's range. -/
def PartitionCovers (cfg : Config) : Prop :=
  (∀ i, convEnd cfg i = convStart cfg (i + 1)) ∧
  convStart cfg 0 = 0 ∧
  convEnd cfg (cfg.num_converters - 1) = cfg.num_files ∧
  (∀ i k, i < cfg.num_converters → convStart cfg i ≤ k → k < convEnd cfg i →
    k < cfg.num_files) ∧
  (∀ k, k < cfg.num_files →
    ∃! i, i < cfg.num_converters ∧ convStart cfg i ≤ k ∧ k < convEnd cfg i)

/-- C4: for every converter count `W ≥ 1` and file count `F ≥ 0`, the
per-converter ranges `[convStart i, convEnd i)` computed in
`converter_thread` (lines 241-242) are contiguous, pairwise disjoint, and
their union is exactly `[0, F)`; when `F < W` some ranges are empty but
there is still no overlap and no gap. -/
theorem converter_partition (cfg : Config) (hW : 1 ≤ cfg.num_converters) :
    PartitionCovers cfg := by
  have hW0 : 0 < cfg.num_converters := hW
  refine ⟨fun i => rfl, by simp [convStart], ?_, ?_, ?_⟩
  · unfold convEnd
    rw [Nat.sub_add_cancel hW]
    exact Nat.mul_div_cancel_left cfg.num_files hW0
  · intro i k hi h1 h2
    have hm := (conv_mem_iff cfg i k hW0).mp ⟨h1, h2⟩
    have h4 : (k + 1) * cfg.num_converters ≤ cfg.num_files * cfg.num_converters := by
      calc (k + 1) * cfg.num_converters ≤ (i + 1) * cfg.num_files := hm.2
        _ ≤ cfg.num_converters * cfg.num_files := Nat.mul_le_mul_right _ hi
        _ = cfg.num_files * cfg.num_converters := Nat.mul_comm _ _
    have := Nat.le_of_mul_le_mul_right h4 hW0
    omega
  · intro k hk
    have hF : 0 < cfg.num_files := by omega
    have hm0 : 0 < (k + 1) * cfg.num_converters := Nat.mul_pos (Nat.succ_pos k) hW0
    have ha : ((k + 1) * cfg.num_converters - 1) / cfg.num_files * cfg.num_files ≤
        (k + 1) * cfg.num_converters - 1 := Nat.div_mul_le_self _ _
    have hb : (k + 1) * cfg.num_converters - 1 <
        (((k + 1) * cfg.num_converters - 1) / cfg.num_files + 1) * cfg.num_files :=
      (Nat.div_lt_iff_lt_mul hF).mp (Nat.lt_succ_self _)
    have hlow : ((k + 1) * cfg.num_converters - 1) / cfg.num_files * cfg.num_files <
        (k + 1) * cfg.num_converters :=
      Nat.lt_of_le_of_lt ha (Nat.sub_lt hm0 Nat.one_pos)
    have hhigh : (k + 1) * cfg.num_converters ≤
        (((k + 1) * cfg.num_converters - 1) / cfg.num_files + 1) * cfg.num_files := by
      have h5 := Nat.succ_le_of_lt hb
      rwa [Nat.succ_eq_add_one, Nat.sub_add_cancel hm0] at h5
    have hc : ((k + 1) * cfg.num_converters - 1) / cfg.num_files < cfg.num_converters := by
      refine (Nat.div_lt_iff_lt_mul hF).mpr ?_
      have h5 : (k + 1) * cfg.num_converters ≤ cfg.num_files * cfg.num_converters :=
        Nat.mul_le_mul_right _ hk
      calc (k + 1) * cfg.num_converters - 1 < (k + 1) * cfg.num_converters :=
            Nat.sub_lt hm0 Nat.one_pos
        _ ≤ cfg.num_files * cfg.num_converters := h5
        _ = cfg.num_converters * cfg.num_files := Nat.mul_comm _ _
    refine ⟨((k + 1) * cfg.num_converters - 1) / cfg.num_files,
      ⟨hc, (conv_mem_iff cfg _ k hW0).mpr ⟨hlow, hhigh⟩⟩, ?_⟩
    intro j hj
    have hmj := (conv_mem_iff cfg j k hW0).mp ⟨hj.2.1, hj.2.2⟩
    rcases Nat.lt_trichotomy j (((k + 1) * cfg.num_converters - 1) / cfg.num_files) with
      hlt | heq | hgt
    · exfalso
      have h6 : (j + 1) * cfg.num_files ≤
          ((k + 1) * cfg.num_converters - 1) / cfg.num_files * cfg.num_files :=
        Nat.mul_le_mul_right _ hlt
      exact Nat.lt_irrefl _
        (Nat.lt_of_le_of_lt (Nat.le_trans hmj.2 h6) hlow)
    · exact heq
    · exfalso
      have h6 : (((k + 1) * cfg.num_converters - 1) / cfg.num_files + 1) * cfg.num_files ≤
          j * cfg.num_files := Nat.mul_le_mul_right _ hgt
      exact Nat.lt_irrefl _
        (Nat.lt_of_le_of_lt (Nat.le_trans hhigh h6) hmj.1)

/-- Witness for C4: the default-clamped degenerate case `num_files = 10`,
`num_converters = 16` (so some partitions are empty). -/
theorem converter_partition_witness :
    1 ≤ (Config.mk 10 16).num_converters ∧ PartitionCovers (Config.mk 10 16) :=
  ⟨by decide, converter_partition (Config.mk 10 16) (by decide)⟩

/-- `struct run_state` (lines 291-298): the fixed-layout persisted record.
`status` is the bounded 64-byte text field; `save_state` stores at most 63
characters into it (`strncpy(..., sizeof(state.status) - 1)`, line 308),
and the designated initializer zero-fills it beforehand. -/
structure RunState where
  start_time : Int
  last_update : Int
  bursts : Nat
  conversions : Nat
  running : Int
  status : String
  deriving DecidableEq, Repr

/-- The contents of `STATE_FILE` (`/var/tmp/ext4-burst-state`): absent, a
record shorter than `sizeof(struct run_state)` (so that `read` in
`check_previous_crash` returns fewer than `sizeof(state)` bytes), or one
full record. -/
inductive StateFile where
  | absent
  | shortRead (st : RunState)
  | full (st : RunState)
  deriving DecidableEq, Repr

/-- The globals read by `save_state` (lines 301-307): `start_time`, the
current `time(NULL)`, and atomic loads of `barrier.burst_count`,
`total_conversions` and `running`. -/
structure Globals where
  start_time : Int
  now : Int
  burst_count : Nat
  total_conversions : Nat
  running : Int
  deriving DecidableEq, Repr

/-- The record assembled by `save_state` (lines 301-308): counters and the
liveness flag are loaded from the globals, and the status text is truncated
to the 63 characters that `strncpy` can copy into the 64-byte field. -/
def mkRunState (status : String) (g : Globals) : RunState :=
  { start_time := g.start_time
    last_update := g.now
    bursts := g.burst_count
    conversions := g.total_conversions
    running := g.running
    status := status.take 63 }

/-- `save_state` (lines 300-316) on its success path: `open(STATE_FILE,
O_WRONLY | O_CREAT | O_TRUNC)` discards any previous contents and the whole
record is written, so the file afterwards holds exactly one full record. -/
def save_state (status : String) (g : Globals) (fs : StateFile) : StateFile :=
  match fs with
  | _ => StateFile.full (mkRunState status g)

/-- One file-system or lock operation, for tracing the body of `save_state`.
`lockFd`/`unlockFd` stand for `pthread_mutex_lock(&fd_mutex)` /
`pthread_mutex_unlock(&fd_mutex)` on the mutex declared at line 70; they are
listed so that a lock acquisition inside `save_state`, had the code
performed one, would be visible in the trace. -/
inductive FsOp where
  | lockFd
  | unlockFd
  | openW
  | writeRec (st : RunState)
  | fsyncOp
  | closeOp
  deriving DecidableEq, Repr

/-- The exact operation sequence of `save_state`'s body (lines 310-315):
open, one whole-record `write`, `fsync`, `close` -- and nothing else; in
particular no lock operation. -/
def save_state_trace (status : String) (g : Globals) : List FsOp :=
  [FsOp.openW, FsOp.writeRec (mkRunState status g), FsOp.fsyncOp, FsOp.closeOp]

/-- Whether a trace contains any operation on `fd_mutex`. -/
def hasLockOp (l : List FsOp) : Bool :=
  l.any (fun op => op == FsOp.lockFd || op == FsOp.unlockFd)

/-- What `check_previous_crash` prints when it reports a crash
(lines 326-331). -/
structure CrashReport where
  runtime : Int
  bursts : Nat
  conversions : Nat
  status : String
  deriving DecidableEq, Repr

/-- `check_previous_crash` (lines 318-338): `open` failing (absent file)
returns 0; a short `read` returns 0 and leaves the file; a full record with
a truthy `running` flag is reported (runtime `last_update - start_time`,
bursts, conversions, status) and the file is `unlink`ed; a full record with
`running == 0` returns 0 and leaves the file. -/
def check_previous_crash (fs : StateFile) : Option CrashReport × StateFile :=
  match fs with
  | StateFile.absent => (none, StateFile.absent)
  | StateFile.shortRead st => (none, StateFile.shortRead st)
  | StateFile.full st =>
    if st.running ≠ 0 then
      (some { runtime := st.last_update - st.start_time
              bursts := st.bursts
              conversions := st.conversions
              status := st.status }, StateFile.absent)
    else
      (none, StateFile.full st)

/-- `sighandler` (lines 340-345): stores 0 to `running`, then calls
`save_state("stopped by signal")`, which therefore serializes the already
cleared flag. -/
def sighandler (g : Globals) (fs : StateFile) : Globals × StateFile :=
  let g' := { g with running := 0 }
  (g', save_state "stopped by signal" g' fs)

/-- The globals of a snapshot taken mid-run with 12345 completed
conversions, used for the C5 round trip. -/
def gRun : Globals :=
  { start_time := 100, now := 200, burst_count := 7
    total_conversions := 12345, running := 1 }

/-- C5: persisting a record with `running = 1`, `conversions = 12345` and
status "stopped by signal" via `save_state`, then calling
`check_previous_crash`, reports a crash with `conversions = 12345` and that
status and deletes the record file; a second immediate call reports
nothing. -/
theorem crash_round_trip :
    check_previous_crash (save_state "stopped by signal" gRun StateFile.absent) =
      (some (CrashReport.mk 100 7 12345 "stopped by signal"), StateFile.absent) ∧
    check_previous_crash
        (check_previous_crash (save_state "stopped by signal" gRun StateFile.absent)).2 =
      (none, StateFile.absent) := by
  decide

/-- C6: `check_previous_crash` reports a prior crash exactly when the state
file holds a full record whose `running` flag is nonzero; it deletes the
file exactly in that case, and otherwise (absent file, short record, or a
clean `running = 0` record) it reports nothing and leaves the file
unchanged. -/
theorem check_previous_crash_spec (fs : StateFile) :
    ((check_previous_crash fs).1.isSome ↔
      ∃ st, fs = StateFile.full st ∧ st.running ≠ 0) ∧
    (check_previous_crash fs).2 =
      (if (check_previous_crash fs).1.isSome then StateFile.absent else fs) := by
  cases fs with
  | absent => simp [check_previous_crash]
  | shortRead st => simp [check_previous_crash]
  | full st =>
    by_cases h : st.running = 0 <;> simp [check_previous_crash, h]

/-- The conclusion of C7 for a snapshot of globals `g` with text `status`:
the record carries the liveness flag, timestamps, counters and truncated
status text; the file afterwards holds that full record; the write is a
single whole-record write forced to durable storage (`fsync`) before the
function returns; and the shutdown snapshot taken by `sighandler` carries
`running = 0` together with the explicit "stopped by signal" status. -/
def SnapshotOk (status : String) (g : Globals) (fs : StateFile) : Prop :=
  (mkRunState status g).running = 1 ∧
  save_state status g fs = StateFile.full (mkRunState status g) ∧
  save_state_trace status g =
    [FsOp.openW, FsOp.writeRec (mkRunState status g), FsOp.fsyncOp, FsOp.closeOp] ∧
  (mkRunState status g).status = status.take 63 ∧
  (mkRunState status g).bursts = g.burst_count ∧
  (mkRunState status g).conversions = g.total_conversions ∧
  (mkRunState status g).start_time = g.start_time ∧
  (mkRunState status g).last_update = g.now ∧
  (sighandler g fs).2 =
    StateFile.full (mkRunState "stopped by signal" { g with running := 0 }) ∧
  (mkRunState "stopped by signal" { g with running := 0 }).running = 0 ∧
  (mkRunState "stopped by signal" { g with running := 0 }).status = "stopped by signal"

/-- C7: every snapshot taken during the run (`running = 1`) serializes the
record with a truthy running flag together with the timestamps, counters
and status text, as one whole fixed-layout record forced to durable storage
before returning; the shutdown snapshot taken by `sighandler` carries
`running = 0` and the explicit "stopped by signal" status. -/
theorem stopped_by_signal_take :
    ("stopped by signal" : String).take 63 = "stopped by signal" := by
  decide

theorem save_state_snapshot (status : String) (g : Globals) (fs : StateFile)
    (h : g.running = 1) : SnapshotOk status g fs := by
  refine ⟨h, rfl, rfl, ?_, rfl, rfl, rfl, rfl, rfl, rfl, ?_⟩
  · simp [mkRunState]
  · simp [mkRunState, stopped_by_signal_take]

/-- Witness for C7: a snapshot of `gRun` (which has `running = 1`). -/
theorem save_state_snapshot_witness :
    gRun.running = 1 ∧ SnapshotOk "running" gRun StateFile.absent :=
  ⟨rfl, save_state_snapshot "running" gRun StateFile.absent rfl⟩

/-- Counterexample for C10: the write performed by `save_state` is not
surrounded by any acquisition of `fd_mutex` (or of any other lock) -- the
operation trace of a concrete snapshot contains no lock operation at
all. -/
theorem save_state_no_lock_cex :
    hasLockOp (save_state_trace "running" gRun) = false := by
  decide

/-- C10 (amended): `fd_mutex` is declared (line 70) but never acquired;
every execution of `save_state`, for every status text and every global
state, performs its open/write/fsync/close sequence without any lock
operation, so concurrent writers of the state record are not mutually
excluded. -/
theorem save_state_no_lock (status : String) (g : Globals) :
    hasLockOp (save_state_trace status g) = false := by
  rfl

/-- Program counter of `coordinator_thread` (lines 118-177).  Each value
names the next atomic access (or block of external I/O) the thread will
perform: the `while (running)` loop head (line 127), the wait for
accumulation (lines 131-135), the store of `PHASE_TRIGGER` (line 141), the
non-blocking `sync_file_range` loop (lines 144-149), the store of
`PHASE_CONVERT` (line 155), the wait for conversions (lines 158-161), the
local `bursts++` (line 163), and the store to `barrier.burst_count`
(line 164). -/
inductive CoordPC where
  | loopHead
  | waitAcc
  | storeTrigger
  | syncFiles
  | storeConvert
  | waitConvertDone
  | incBurst
  | storeBurst
  | done
  deriving DecidableEq, Repr

/-- Program counter of `accumulator_thread` (lines 182-227): loop head
(line 187), file creation (lines 193-199), the readiness
`atomic_fetch_add(&barrier.ready_count, 1)` (line 202), the wait for
`PHASE_CONVERT` (lines 204-206), the wait for `PHASE_CLEANUP`
(lines 209-211), the close/unlink cleanup (lines 214-220), and the store of
`PHASE_ACCUMULATE` (line 223). -/
inductive AccumPC where
  | loopHead
  | createFiles
  | signalReady
  | waitConvert
  | waitCleanup
  | cleanupFiles
  | storeAccum
  | done
  deriving DecidableEq, Repr

/-- Program counter of one `converter_thread` (lines 233-286): loop head
(line 247), the wait for `PHASE_CONVERT` (lines 249-251), the `running`
re-check (line 253), the conversion loop (lines 259-267), the
`atomic_fetch_add(&total_conversions, end - start)` (line 269), the arrival
`atomic_fetch_add(&barrier.ready_count, 1)` together with the comparison of
its result against `num_converters` (lines 272-273), the store of 0 to
`ready_count` (line 275), the store of `PHASE_CLEANUP` (line 276), and the
wait for the next cycle (lines 280-282). -/
inductive ConvPC where
  | loopHead
  | waitConvert
  | checkRunning
  | convertFiles
  | addTotal
  | arriveAdd
  | resetCount
  | storeCleanup
  | waitNext
  | done
  deriving DecidableEq, Repr

/-- The shared atomics of the program (`barrier.phase`,
`barrier.ready_count`, `barrier.burst_count`, `running`,
`total_conversions`) together with every thread's program counter and the
coordinator's local `bursts`.  The file descriptors and paths are external
state touched only by the collapsed I/O steps. -/
structure SysState where
  phase : Nat
  ready_count : Nat
  burst_count : Nat
  total_conversions : Nat
  running : Nat
  coordPC : CoordPC
  coordBursts : Nat
  accumPC : AccumPC
  convPCs : List ConvPC
  deriving DecidableEq, Repr

/-- The state after `main` has initialized the barrier (lines 446-448) and
started the coordinator, the accumulator and `num_converters` converter
threads. -/
def initState (cfg : Config) : SysState :=
  { phase := PHASE_ACCUMULATE
    ready_count := 0
    burst_count := 0
    total_conversions := 0
    running := 1
    coordPC := CoordPC.loopHead
    coordBursts := 0
    accumPC := AccumPC.loopHead
    convPCs := List.replicate cfg.num_converters ConvPC.loopHead }

/-- One step of `coordinator_thread`.  A spin iteration whose guard holds
leaves the state unchanged (the thread merely re-reads the atomics). -/
def stepCoord (s : SysState) : SysState :=
  match s.coordPC with
  | CoordPC.loopHead =>
    if s.running ≠ 0 then { s with coordPC := CoordPC.waitAcc }
    else { s with coordPC := CoordPC.done }
  | CoordPC.waitAcc =>
    if s.phase = PHASE_ACCUMULATE ∧ 1 ≤ s.ready_count then
      { s with coordPC := CoordPC.storeTrigger }
    else if s.running = 0 then { s with coordPC := CoordPC.done }
    else s
  | CoordPC.storeTrigger =>
    { s with phase := PHASE_TRIGGER, coordPC := CoordPC.syncFiles }
  | CoordPC.syncFiles => { s with coordPC := CoordPC.storeConvert }
  | CoordPC.storeConvert =>
    { s with phase := PHASE_CONVERT, coordPC := CoordPC.waitConvertDone }
  | CoordPC.waitConvertDone =>
    if s.phase ≠ PHASE_CONVERT then { s with coordPC := CoordPC.incBurst }
    else if s.running = 0 then { s with coordPC := CoordPC.done }
    else s
  | CoordPC.incBurst =>
    { s with coordBursts := (s.coordBursts + 1) % ULONG_MOD,
             coordPC := CoordPC.storeBurst }
  | CoordPC.storeBurst =>
    { s with burst_count := s.coordBursts, coordPC := CoordPC.loopHead }
  | CoordPC.done => s

/-- One step of `accumulator_thread`. -/
def stepAccum (s : SysState) : SysState :=
  match s.accumPC with
  | AccumPC.loopHead =>
    if s.running ≠ 0 then { s with accumPC := AccumPC.createFiles }
    else { s with accumPC := AccumPC.done }
  | AccumPC.createFiles => { s with accumPC := AccumPC.signalReady }
  | AccumPC.signalReady =>
    { s with ready_count := (s.ready_count + 1) % UINT_MOD,
             accumPC := AccumPC.waitConvert }
  | AccumPC.waitConvert =>
    if s.phase = PHASE_CONVERT ∨ s.running = 0 then
      { s with accumPC := AccumPC.waitCleanup }
    else s
  | AccumPC.waitCleanup =>
    if s.phase = PHASE_CLEANUP ∨ s.running = 0 then
      { s with accumPC := AccumPC.cleanupFiles }
    else s
  | AccumPC.cleanupFiles => { s with accumPC := AccumPC.storeAccum }
  | AccumPC.storeAccum =>
    { s with phase := PHASE_ACCUMULATE, accumPC := AccumPC.loopHead }
  | AccumPC.done => s

/-- One step of converter `i` at program counter `pc`.  At `arriveAdd` the
value returned by the fetch-and-add decides, at that instant, whether this
converter is the one that saw `ready == (uint)num_converters`; the
subsequent stores of `0` to the counter and of `PHASE_CLEANUP` to the phase
are separate atomic accesses (lines 275-276). -/
def stepConvPC (cfg : Config) (i : Nat) (pc : ConvPC) (s : SysState) : SysState :=
  match pc with
  | ConvPC.loopHead =>
    if s.running ≠ 0 then { s with convPCs := s.convPCs.set i ConvPC.waitConvert }
    else { s with convPCs := s.convPCs.set i ConvPC.done }
  | ConvPC.waitConvert =>
    if s.phase = PHASE_CONVERT ∨ s.running = 0 then
      { s with convPCs := s.convPCs.set i ConvPC.checkRunning }
    else s
  | ConvPC.checkRunning =>
    if s.running = 0 then { s with convPCs := s.convPCs.set i ConvPC.done }
    else { s with convPCs := s.convPCs.set i ConvPC.convertFiles }
  | ConvPC.convertFiles => { s with convPCs := s.convPCs.set i ConvPC.addTotal }
  | ConvPC.addTotal =>
    let total := (s.total_conversions + (convEnd cfg i - convStart cfg i)) % ULONG_MOD
    { s with total_conversions := total, convPCs := s.convPCs.set i ConvPC.arriveAdd }
  | ConvPC.arriveAdd =>
    let ready := (s.ready_count + 1) % UINT_MOD
    if ready = cfg.num_converters then
      { s with ready_count := ready, convPCs := s.convPCs.set i ConvPC.resetCount }
    else
      { s with ready_count := ready, convPCs := s.convPCs.set i ConvPC.waitNext }
  | ConvPC.resetCount =>
    { s with ready_count := 0, convPCs := s.convPCs.set i ConvPC.storeCleanup }
  | ConvPC.storeCleanup =>
    { s with phase := PHASE_CLEANUP, convPCs := s.convPCs.set i ConvPC.waitNext }
  | ConvPC.waitNext =>
    if s.phase ≠ PHASE_CLEANUP ∨ s.running = 0 then
      { s with convPCs := s.convPCs.set i ConvPC.loopHead }
    else s
  | ConvPC.done => s

/-- One step of converter `i`; a thread id with no program counter (an
index outside `convPCs`) stutters. -/
def stepConv (cfg : Config) (i : Nat) (s : SysState) : SysState :=
  match s.convPCs.get? i with
  | none => s
  | some pc => stepConvPC cfg i pc s

/-- A thread of the system: the coordinator, the accumulator, converter
`i`, or the asynchronous delivery of SIGINT/SIGTERM (whose handler's only
shared-atomic effect is the store of 0 to `running`, line 343; its
`save_state` call acts on the separately modelled state file). -/
inductive ThreadId where
  | coord
  | accum
  | conv (i : Nat)
  | signalDelivery
  deriving DecidableEq, Repr

/-- One interleaving step of the whole system, taken by thread `t`. -/
def stepThread (cfg : Config) (t : ThreadId) (s : SysState) : SysState :=
  match t with
  | ThreadId.coord => stepCoord s
  | ThreadId.accum => stepAccum s
  | ThreadId.conv i => stepConv cfg i s
  | ThreadId.signalDelivery => { s with running := 0 }

/-- Execute a schedule (a list of thread ids, each taking one step) from
the initial state. -/
def runSched (cfg : Config) (l : List ThreadId) : SysState :=
  l.foldl (fun s t => stepThread cfg t s) (initState cfg)

/-- The step relation of the system: some thread takes one step. -/
def Step (cfg : Config) (s s' : SysState) : Prop :=
  ∃ t, stepThread cfg t s = s'

/-- A state is reachable if some finite interleaving reaches it from the
initial state. -/
def Reachable (cfg : Config) (s : SysState) : Prop :=
  Relation.ReflTransGen (Step cfg) (initState cfg) s

theorem reachable_foldl (cfg : Config) (l : List ThreadId) :
    ∀ s, Relation.ReflTransGen (Step cfg) s
      (l.foldl (fun s t => stepThread cfg t s) s) := by
  induction l with
  | nil => exact fun s => Relation.ReflTransGen.refl
  | cons t l ih =>
    intro s
    exact Relation.ReflTransGen.head ⟨t, rfl⟩ (ih (stepThread cfg t s))

theorem runSched_reachable (cfg : Config) (l : List ThreadId) :
    Reachable cfg (runSched cfg l) :=
  reachable_foldl cfg l (initState cfg)

theorem stepCoord_ready (s : SysState) :
    (stepCoord s).ready_count = s.ready_count := by
  rcases s with ⟨ph, rc, bc, tc, ru, cpc, cb, apc, cv⟩
  cases cpc <;> simp [stepCoord] <;> split_ifs <;> rfl

theorem stepCoord_total (s : SysState) :
    (stepCoord s).total_conversions = s.total_conversions := by
  rcases s with ⟨ph, rc, bc, tc, ru, cpc, cb, apc, cv⟩
  cases cpc <;> simp [stepCoord] <;> split_ifs <;> rfl

theorem stepCoord_burst (s : SysState) :
    (stepCoord s).burst_count = s.burst_count ∨
    (stepCoord s).burst_count = s.coordBursts := by
  rcases s with ⟨ph, rc, bc, tc, ru, cpc, cb, apc, cv⟩
  cases cpc <;> simp [stepCoord] <;> split_ifs <;> simp

theorem stepCoord_phase (s : SysState) :
    (stepCoord s).phase = s.phase ∨ (stepCoord s).phase = PHASE_TRIGGER ∨
    (stepCoord s).phase = PHASE_CONVERT := by
  rcases s with ⟨ph, rc, bc, tc, ru, cpc, cb, apc, cv⟩
  cases cpc <;> simp [stepCoord] <;> split_ifs <;> simp

theorem stepAccum_ready (s : SysState) :
    (stepAccum s).ready_count = s.ready_count ∨
    ((stepAccum s).ready_count = (s.ready_count + 1) % UINT_MOD ∧
      s.accumPC = AccumPC.signalReady) := by
  rcases s with ⟨ph, rc, bc, tc, ru, cpc, cb, apc, cv⟩
  cases apc <;> simp [stepAccum] <;> split_ifs <;> simp

theorem stepAccum_total (s : SysState) :
    (stepAccum s).total_conversions = s.total_conversions := by
  rcases s with ⟨ph, rc, bc, tc, ru, cpc, cb, apc, cv⟩
  cases apc <;> simp [stepAccum] <;> split_ifs <;> rfl

theorem stepAccum_burst (s : SysState) :
    (stepAccum s).burst_count = s.burst_count := by
  rcases s with ⟨ph, rc, bc, tc, ru, cpc, cb, apc, cv⟩
  cases apc <;> simp [stepAccum] <;> split_ifs <;> rfl

theorem stepAccum_phase (s : SysState) :
    (stepAccum s).phase = s.phase ∨ (stepAccum s).phase = PHASE_ACCUMULATE := by
  rcases s with ⟨ph, rc, bc, tc, ru, cpc, cb, apc, cv⟩
  cases apc <;> simp [stepAccum] <;> split_ifs <;> simp

theorem stepConvPC_ready (cfg : Config) (i : Nat) (pc : ConvPC) (s : SysState) :
    (stepConvPC cfg i pc s).ready_count = s.ready_count ∨
    ((stepConvPC cfg i pc s).ready_count = (s.ready_count + 1) % UINT_MOD ∧
      pc = ConvPC.arriveAdd) ∨
    ((stepConvPC cfg i pc s).ready_count = 0 ∧ pc = ConvPC.resetCount) := by
  cases pc <;> simp [stepConvPC] <;> split_ifs <;> simp

theorem stepConvPC_total (cfg : Config) (i : Nat) (pc : ConvPC) (s : SysState) :
    (stepConvPC cfg i pc s).total_conversions = s.total_conversions ∨
    ((stepConvPC cfg i pc s).total_conversions =
      (s.total_conversions + (convEnd cfg i - convStart cfg i)) % ULONG_MOD ∧
      pc = ConvPC.addTotal) := by
  cases pc <;> simp [stepConvPC] <;> split_ifs <;> simp

theorem stepConvPC_burst (cfg : Config) (i : Nat) (pc : ConvPC) (s : SysState) :
    (stepConvPC cfg i pc s).burst_count = s.burst_count := by
  cases pc <;> simp [stepConvPC] <;> split_ifs <;> rfl

theorem stepConvPC_phase (cfg : Config) (i : Nat) (pc : ConvPC) (s : SysState) :
    (stepConvPC cfg i pc s).phase = s.phase ∨
    (stepConvPC cfg i pc s).phase = PHASE_CLEANUP := by
  cases pc <;> simp [stepConvPC] <;> split_ifs <;> simp

/-- Configuration with one converter, used for the C2 counterexample. -/
def cfgOne : Config := Config.mk 10 1

/-- Schedule: the accumulator creates its files and signals readiness (3
steps), then the coordinator passes its loop head and its wait for
accumulation (2 steps) and is about to store `PHASE_TRIGGER`. -/
def schedDouble : List ThreadId :=
  [ThreadId.accum, ThreadId.accum, ThreadId.accum, ThreadId.coord, ThreadId.coord]

/-- Counterexample for C2: in a reachable state the coordinator performs
two phase advances in a row -- the store of `PHASE_TRIGGER` (line 141) and,
two of its own steps later, the store of `PHASE_CONVERT` (line 155) -- while
the arrival counter stays 1 the whole time: no reset of the arrival counter
intervenes between the two advances, and neither advance happens at a
quorum instant. -/
theorem coordinator_double_advance_cex :
    Reachable cfgOne (runSched cfgOne schedDouble) ∧
    (runSched cfgOne schedDouble).phase = PHASE_ACCUMULATE ∧
    (runSched cfgOne schedDouble).ready_count = 1 ∧
    (stepThread cfgOne ThreadId.coord (runSched cfgOne schedDouble)).phase =
      PHASE_TRIGGER ∧
    (stepThread cfgOne ThreadId.coord (runSched cfgOne schedDouble)).ready_count = 1 ∧
    (stepThread cfgOne ThreadId.coord (stepThread cfgOne ThreadId.coord
      (runSched cfgOne schedDouble))).phase = PHASE_TRIGGER ∧
    (stepThread cfgOne ThreadId.coord (stepThread cfgOne ThreadId.coord
      (runSched cfgOne schedDouble))).ready_count = 1 ∧
    (stepThread cfgOne ThreadId.coord (stepThread cfgOne ThreadId.coord
      (stepThread cfgOne ThreadId.coord (runSched cfgOne schedDouble)))).phase =
      PHASE_CONVERT ∧
    (stepThread cfgOne ThreadId.coord (stepThread cfgOne ThreadId.coord
      (stepThread cfgOne ThreadId.coord (runSched cfgOne schedDouble)))).ready_count =
      1 :=
  ⟨runSched_reachable cfgOne schedDouble, by decide, by decide, by decide, by decide,
    by decide, by decide, by decide, by decide⟩

/-- Configuration with two converters, used for the C3 counterexample. -/
def cfgTwo : Config := Config.mk 10 2

/-- Schedule reaching a state where a straggling converter is about to
store `PHASE_CLEANUP` while the phase register already holds
`PHASE_TRIGGER` of the *next* cycle.  Because the accumulator's readiness
increment (line 202) is never consumed, converter 0's arrival alone
satisfies `ready == num_converters` in the first cycle; converter 1's late
arrival then satisfies it again during the second cycle's trigger phase. -/
def schedSkip : List ThreadId :=
  [ThreadId.accum, ThreadId.accum, ThreadId.accum,
   ThreadId.coord, ThreadId.coord, ThreadId.coord, ThreadId.coord, ThreadId.coord,
   ThreadId.accum,
   ThreadId.conv 0, ThreadId.conv 0, ThreadId.conv 0, ThreadId.conv 0, ThreadId.conv 0,
   ThreadId.conv 1, ThreadId.conv 1, ThreadId.conv 1, ThreadId.conv 1, ThreadId.conv 1,
   ThreadId.conv 0, ThreadId.conv 0, ThreadId.conv 0,
   ThreadId.accum, ThreadId.accum, ThreadId.accum, ThreadId.accum, ThreadId.accum,
   ThreadId.accum,
   ThreadId.coord, ThreadId.coord, ThreadId.coord, ThreadId.coord, ThreadId.coord,
   ThreadId.coord,
   ThreadId.conv 1, ThreadId.conv 1]

/-- Counterexample for C3: a reachable state (with the running flag still
set) in which one system step moves the phase register from `PHASE_TRIGGER`
(1) directly to `PHASE_CLEANUP` (3), skipping `PHASE_CONVERT` (2) -- the
phase does not always move exactly one step forward in the cyclic order. -/
theorem phase_skip_cex :
    Reachable cfgTwo (runSched cfgTwo schedSkip) ∧
    (runSched cfgTwo schedSkip).running = 1 ∧
    (runSched cfgTwo schedSkip).phase = PHASE_TRIGGER ∧
    (stepThread cfgTwo (ThreadId.conv 1) (runSched cfgTwo schedSkip)).phase =
      PHASE_CLEANUP :=
  ⟨runSched_reachable cfgTwo schedSkip, by decide, by decide, by decide⟩

/-- The default-clamped degenerate configuration `num_files = 10`,
`num_converters = 16`, in which converters 10..15 own empty partitions. -/
def cfgWide : Config := Config.mk 10 16

/-- Schedule driving the system into `PHASE_CONVERT` and converter 10 (an
empty partition) up to its `total_conversions` fetch-and-add. -/
def schedZeroAdd : List ThreadId :=
  [ThreadId.accum, ThreadId.accum, ThreadId.accum,
   ThreadId.coord, ThreadId.coord, ThreadId.coord, ThreadId.coord, ThreadId.coord,
   ThreadId.conv 10, ThreadId.conv 10, ThreadId.conv 10, ThreadId.conv 10]

/-- Counterexample for C8: in a reachable state, converter 10's counter
update -- the `atomic_fetch_add(&total_conversions, end - start)` of line
269 -- adds zero (its partition is empty because `num_files <
num_converters`), so the executed update is not a fetch-and-add of a
positive amount and the counter does not strictly increase at that step. -/
theorem zero_fetch_add_cex :
    Reachable cfgWide (runSched cfgWide schedZeroAdd) ∧
    (runSched cfgWide schedZeroAdd).convPCs.get? 10 = some ConvPC.addTotal ∧
    convEnd cfgWide 10 - convStart cfgWide 10 = 0 ∧
    (stepThread cfgWide (ThreadId.conv 10) (runSched cfgWide schedZeroAdd)).convPCs.get? 10 =
      some ConvPC.arriveAdd ∧
    (stepThread cfgWide (ThreadId.conv 10) (runSched cfgWide schedZeroAdd)).total_conversions =
      (runSched cfgWide schedZeroAdd).total_conversions :=
  ⟨runSched_reachable cfgWide schedZeroAdd, by decide, by decide, by decide, by decide⟩

theorem convPCs_length_of_get? {s : SysState} {i : Nat} {pc : ConvPC}
    (h : s.convPCs.get? i = some pc) : i < s.convPCs.length := by
  rcases List.get?_eq_some.mp h with ⟨hlen, _⟩
  exact hlen

/-- C2 (amended): the arrival counter is written by exactly three kinds of
step.  (1) Any step that zeroes a nonzero counter is either a wrapping
increment or the dedicated reset store (line 275) of a converter whose
preceding fetch-and-add returned `num_converters`; (2) a converter at its
arrival fetch-and-add (lines 272-273) proceeds to that reset store exactly
when the value returned by the fetch-and-add equals `num_converters`;
(3) the reset store zeroes the counter and is immediately followed by
(4) the store of `PHASE_CLEANUP` (line 276).  So the quorum-driven
CONVERT-to-CLEANUP advance does reset the counter at the quorum instant,
but it is the only phase advance that resets the counter: the
coordinator's advances to `PHASE_TRIGGER` and `PHASE_CONVERT` and the
accumulator's advance to `PHASE_ACCUMULATE` touch neither the counter nor
any quorum, and consecutive phase advances without an intervening reset
occur (see the counterexample). -/
theorem ready_reset_characterization :
    (∀ (cfg : Config) (t : ThreadId) (s : SysState),
        (stepThread cfg t s).ready_count = 0 → s.ready_count ≠ 0 →
        (s.ready_count + 1) % UINT_MOD = 0 ∨
          ∃ i, t = ThreadId.conv i ∧ s.convPCs.get? i = some ConvPC.resetCount) ∧
    (∀ (cfg : Config) (i : Nat) (s : SysState),
        s.convPCs.get? i = some ConvPC.arriveAdd →
        ((stepThread cfg (ThreadId.conv i) s).convPCs.get? i = some ConvPC.resetCount ↔
          (s.ready_count + 1) % UINT_MOD = cfg.num_converters)) ∧
    (∀ (cfg : Config) (i : Nat) (s : SysState),
        s.convPCs.get? i = some ConvPC.resetCount →
        stepThread cfg (ThreadId.conv i) s =
          { s with ready_count := 0, convPCs := s.convPCs.set i ConvPC.storeCleanup }) ∧
    (∀ (cfg : Config) (i : Nat) (s : SysState),
        s.convPCs.get? i = some ConvPC.storeCleanup →
        stepThread cfg (ThreadId.conv i) s =
          { s with phase := PHASE_CLEANUP, convPCs := s.convPCs.set i ConvPC.waitNext }) := by
  refine ⟨?_, ?_, ?_, ?_⟩
  · intro cfg t s h0 hne
    match t with
    | ThreadId.coord =>
      rw [show stepThread cfg ThreadId.coord s = stepCoord s from rfl,
        stepCoord_ready s] at h0
      exact absurd h0 hne
    | ThreadId.accum =>
      rcases stepAccum_ready s with h | ⟨h, _⟩
      · rw [show stepThread cfg ThreadId.accum s = stepAccum s from rfl, h] at h0
        exact absurd h0 hne
      · rw [show stepThread cfg ThreadId.accum s = stepAccum s from rfl, h] at h0
        exact Or.inl h0
    | ThreadId.signalDelivery => exact absurd h0 hne
    | ThreadId.conv i =>
      rw [show stepThread cfg (ThreadId.conv i) s = stepConv cfg i s from rfl] at h0
      unfold stepConv at h0
      cases hget : s.convPCs.get? i with
      | none =>
        rw [hget] at h0
        exact absurd h0 hne
      | some pc =>
        rw [hget] at h0
        rcases stepConvPC_ready cfg i pc s with h | ⟨h, hpc⟩ | ⟨_, hpc⟩
        · rw [h] at h0
          exact absurd h0 hne
        · rw [h] at h0
          exact Or.inl h0
        · subst hpc
          exact Or.inr ⟨i, rfl, hget⟩
  · intro cfg i s hget
    have hlen := convPCs_length_of_get? hget
    have hget2 : s.convPCs[i]? = some ConvPC.arriveAdd := by
      rw [← List.get?_eq_getElem?]
      exact hget
    have hstep : stepThread cfg (ThreadId.conv i) s =
        stepConvPC cfg i ConvPC.arriveAdd s := by
      simp [stepThread, stepConv, hget2]
    rw [hstep]
    unfold stepConvPC
    by_cases h : (s.ready_count + 1) % UINT_MOD = cfg.num_converters
    · simp only [h, if_pos rfl]
      simp [List.getElem?_set_eq_of_lt _ hlen, h]
    · simp only [if_neg h]
      simp [List.getElem?_set_eq_of_lt _ hlen, h]
  · intro cfg i s hget
    have hget2 : s.convPCs[i]? = some ConvPC.resetCount := by
      rw [← List.get?_eq_getElem?]
      exact hget
    simp [stepThread, stepConv, hget2, stepConvPC]
  · intro cfg i s hget
    have hget2 : s.convPCs[i]? = some ConvPC.storeCleanup := by
      rw [← List.get?_eq_getElem?]
      exact hget
    simp [stepThread, stepConv, hget2, stepConvPC]

/-- A state with a single converter poised at the reset store, for the C2
amended-claim witness. -/
def sPoisedReset : SysState :=
  { phase := PHASE_CONVERT, ready_count := 1, burst_count := 0,
    total_conversions := 0, running := 1, coordPC := CoordPC.waitConvertDone,
    coordBursts := 0, accumPC := AccumPC.waitConvert,
    convPCs := [ConvPC.resetCount] }

/-- Witness for the amended C2: converter 0 of `sPoisedReset` zeroes the
nonzero arrival counter, and the characterization identifies it as the
converter reset step. -/
theorem ready_reset_characterization_witness :
    (stepThread cfgOne (ThreadId.conv 0) sPoisedReset).ready_count = 0 ∧
    sPoisedReset.ready_count ≠ 0 ∧
    ((sPoisedReset.ready_count + 1) % UINT_MOD = 0 ∨
      ∃ i, ThreadId.conv 0 = ThreadId.conv i ∧
        sPoisedReset.convPCs.get? i = some ConvPC.resetCount) :=
  ⟨by decide, by decide,
    ready_reset_characterization.1 cfgOne (ThreadId.conv 0) sPoisedReset
      (by decide) (by decide)⟩

theorem stepThread_phase (cfg : Config) (t : ThreadId) (s : SysState) :
    (stepThread cfg t s).phase = s.phase ∨ (stepThread cfg t s).phase < 4 := by
  match t with
  | ThreadId.coord =>
    rcases stepCoord_phase s with h | h | h
    · exact Or.inl h
    · right
      rw [show stepThread cfg ThreadId.coord s = stepCoord s from rfl, h]
      decide
    · right
      rw [show stepThread cfg ThreadId.coord s = stepCoord s from rfl, h]
      decide
  | ThreadId.accum =>
    rcases stepAccum_phase s with h | h
    · exact Or.inl h
    · right
      rw [show stepThread cfg ThreadId.accum s = stepAccum s from rfl, h]
      decide
  | ThreadId.signalDelivery => exact Or.inl rfl
  | ThreadId.conv i =>
    rw [show stepThread cfg (ThreadId.conv i) s = stepConv cfg i s from rfl]
    unfold stepConv
    cases hget : s.convPCs.get? i with
    | none => exact Or.inl rfl
    | some pc =>
      rcases stepConvPC_phase cfg i pc s with h | h
      · exact Or.inl h
      · right
        rw [h]
        decide

/-- C3 (amended): every write to the shared phase register stores one of
the four phase constants, so in every reachable state the phase is one of
ACCUMULATE/TRIGGER/CONVERT/CLEANUP; but the transitions are not always one
step forward in the cyclic order -- a straggling converter's quorum store
can jump from TRIGGER directly to CLEANUP (see the counterexample). -/
theorem phase_in_range (cfg : Config) (s : SysState) (h : Reachable cfg s) :
    s.phase < 4 := by
  induction h with
  | refl =>
    show PHASE_ACCUMULATE < 4
    decide
  | tail _ hstep ih =>
    obtain ⟨t, ht⟩ := hstep
    rcases stepThread_phase cfg t _ with heq | hlt
    · rw [ht] at heq
      rw [heq]
      exact ih
    · rw [ht] at hlt
      exact hlt

/-- Witness for the amended C3: the initial state is reachable and its
phase is in range. -/
theorem phase_in_range_witness : (initState cfgOne).phase < 4 :=
  phase_in_range cfgOne (initState cfgOne) Relation.ReflTransGen.refl

theorem convLen_le (cfg : Config) (i : Nat) :
    convEnd cfg i - convStart cfg i ≤ cfg.num_files := by
  by_cases hW : cfg.num_converters = 0
  · simp [convStart, convEnd, hW]
  · have hW0 : 0 < cfg.num_converters := Nat.pos_of_ne_zero hW
    have key : convEnd cfg i ≤ convStart cfg i + cfg.num_files := by
      unfold convStart convEnd
      rw [Nat.div_le_iff_le_mul_add_pred hW0, Nat.mul_add]
      have hd := Nat.div_add_mod (i * cfg.num_files) cfg.num_converters
      have hm : (i * cfg.num_files) % cfg.num_converters < cfg.num_converters :=
        Nat.mod_lt _ hW0
      have hF : cfg.num_files ≤ cfg.num_converters * cfg.num_files :=
        Nat.le_mul_of_pos_left _ hW0
      have h3 : (i + 1) * cfg.num_files = i * cfg.num_files + cfg.num_files := by ring
      omega
    omega

/-- C8 (amended): the statistics counters never decrease at any step of the
system: as long as the 64-bit counter does not wrap, every update of
`total_conversions` is a fetch-and-add of the non-negative partition size
`end - start` (which is zero exactly for empty partitions, possible when
`num_files < num_converters`, so the increase is not always strict), and
every update of `barrier.burst_count` stores the coordinator's local burst
counter, which dominates the previously stored value. -/
theorem counters_monotone (cfg : Config) (t : ThreadId) (s : SysState)
    (h1 : s.burst_count ≤ s.coordBursts)
    (h2 : s.total_conversions + cfg.num_files < ULONG_MOD) :
    s.total_conversions ≤ (stepThread cfg t s).total_conversions ∧
    s.burst_count ≤ (stepThread cfg t s).burst_count := by
  match t with
  | ThreadId.coord =>
    rw [show stepThread cfg ThreadId.coord s = stepCoord s from rfl]
    refine ⟨Nat.le_of_eq (stepCoord_total s).symm, ?_⟩
    rcases stepCoord_burst s with h | h
    · exact Nat.le_of_eq h.symm
    · rw [h]
      exact h1
  | ThreadId.accum =>
    rw [show stepThread cfg ThreadId.accum s = stepAccum s from rfl]
    exact ⟨Nat.le_of_eq (stepAccum_total s).symm, Nat.le_of_eq (stepAccum_burst s).symm⟩
  | ThreadId.signalDelivery => exact ⟨Nat.le_refl _, Nat.le_refl _⟩
  | ThreadId.conv i =>
    rw [show stepThread cfg (ThreadId.conv i) s = stepConv cfg i s from rfl]
    unfold stepConv
    cases hget : s.convPCs.get? i with
    | none => exact ⟨Nat.le_refl _, Nat.le_refl _⟩
    | some pc =>
      refine ⟨?_, Nat.le_of_eq (stepConvPC_burst cfg i pc s).symm⟩
      rcases stepConvPC_total cfg i pc s with h | ⟨h, _⟩
      · exact Nat.le_of_eq h.symm
      · rw [h]
        have hle := convLen_le cfg i
        have hlt : s.total_conversions + (convEnd cfg i - convStart cfg i) < ULONG_MOD := by
          omega
        rw [Nat.mod_eq_of_lt hlt]
        exact Nat.le_add_right _ _

/-- Witness for the amended C8: one coordinator step from the initial state
of the degenerate configuration. -/
theorem counters_monotone_witness :
    (initState cfgWide).burst_count ≤ (initState cfgWide).coordBursts ∧
    (initState cfgWide).total_conversions + cfgWide.num_files < ULONG_MOD ∧
    ((initState cfgWide).total_conversions ≤
        (stepThread cfgWide ThreadId.coord (initState cfgWide)).total_conversions ∧
      (initState cfgWide).burst_count ≤
        (stepThread cfgWide ThreadId.coord (initState cfgWide)).burst_count) :=
  ⟨by decide, by decide,
    counters_monotone cfgWide ThreadId.coord (initState cfgWide) (by decide) (by decide)⟩

/-- C9: when the shared running flag is zero, every spin-wait on the
barrier phase terminates immediately, independently of the phase register:
the guard `phase != expected && running` of `barrier_wait_phase` (line 92)
and of the non-last-arriver branch of `barrier_signal_and_wait` (line 109)
evaluates to false, and a converter parked at either of its phase waits
(lines 249-251 and 280-282) leaves the wait in one step. -/
theorem shutdown_unblocks_waits (cfg : Config) (s : SysState) (i j : Nat)
    (h : s.running = 0)
    (hi : s.convPCs.get? i = some ConvPC.waitConvert)
    (hj : s.convPCs.get? j = some ConvPC.waitNext) :
    (∀ p e, barrier_wait_phase_guard p e 0 = false) ∧
    (stepThread cfg (ThreadId.conv i) s).convPCs.get? i = some ConvPC.checkRunning ∧
    (stepThread cfg (ThreadId.conv j) s).convPCs.get? j = some ConvPC.loopHead := by
  refine ⟨?_, ?_, ?_⟩
  · intro p e
    simp [barrier_wait_phase_guard]
  · have hlen := convPCs_length_of_get? hi
    have hi2 : s.convPCs[i]? = some ConvPC.waitConvert := by
      rw [← List.get?_eq_getElem?]
      exact hi
    simp [stepThread, stepConv, hi2, stepConvPC, h, List.getElem?_set_eq_of_lt _ hlen]
  · have hlen := convPCs_length_of_get? hj
    have hj2 : s.convPCs[j]? = some ConvPC.waitNext := by
      rw [← List.get?_eq_getElem?]
      exact hj
    simp [stepThread, stepConv, hj2, stepConvPC, h, List.getElem?_set_eq_of_lt _ hlen]

/-- A stopped state with one converter in each phase wait, and the phase
register parked at `PHASE_TRIGGER` so that neither wait condition holds for
phase reasons. -/
def sStopped : SysState :=
  { phase := PHASE_TRIGGER, ready_count := 0, burst_count := 0,
    total_conversions := 0, running := 0, coordPC := CoordPC.done,
    coordBursts := 0, accumPC := AccumPC.done,
    convPCs := [ConvPC.waitConvert, ConvPC.waitNext] }

/-- Witness for C9: in `sStopped` both parked converters leave their waits
in one step even though the phase is neither CONVERT nor CLEANUP. -/
theorem shutdown_unblocks_waits_witness :
    sStopped.running = 0 ∧
    sStopped.convPCs.get? 0 = some ConvPC.waitConvert ∧
    sStopped.convPCs.get? 1 = some ConvPC.waitNext ∧
    ((∀ p e, barrier_wait_phase_guard p e 0 = false) ∧
      (stepThread cfgOne (ThreadId.conv 0) sStopped).convPCs.get? 0 =
        some ConvPC.checkRunning ∧
      (stepThread cfgOne (ThreadId.conv 1) sStopped).convPCs.get? 1 =
        some ConvPC.loopHead) :=
  ⟨rfl, rfl, rfl, shutdown_unblocks_waits cfgOne sStopped 0 1 rfl rfl rfl⟩
